import Mathlib

/-!
Verification of the cabjovi audio controller core
(`src/cabjovi/sched.py`, `src/cabjovi/playback.py`, `src/cabjovi/mute.py`)
against its natural-language specification.

The Python code is shallowly embedded: Python `int` values become `Int`,
`float` times become `ℚ`, fallible filesystem operations return `Except`,
and `random.choice` takes an explicit pick index.  String handling is
modelled for ASCII inputs (Python's `str.lower` and `\d` are
Unicode-aware; directory names in scope are ASCII).
-/

namespace Cabjovi

/-! ## Scheduler (`src/cabjovi/sched.py`) -/

/-- Embedding of `_TimeRange` from `sched.py`: a recurring weekly interval
given by start/end weekday (0 = Monday .. 6 = Sunday) and hour. -/
structure TimeRange where
  start_day : Int
  start_hour : Int
  end_day : Int
  end_hour : Int
deriving DecidableEq, Repr

/-- Embedding of `_TimeRange.duration` from `sched.py`: duration of the range in hours,
wrapping past the week boundary when the start week-hour exceeds the end
week-hour. -/
def TimeRange.duration (tr : TimeRange) : Int :=
  let start_week_hour := tr.start_day * 24 + tr.start_hour
  let end_week_hour := tr.end_day * 24 + tr.end_hour
  if start_week_hour ≤ end_week_hour then
    end_week_hour - start_week_hour
  else
    7 * 24 - start_week_hour + end_week_hour

/-- Embedding of `_time_in_range` from `sched.py`: whether the moment
(`now_day`, `now_hour`) falls inside `tr`, handling wrap-around ranges. -/
def time_in_range (now_day now_hour : Int) (tr : TimeRange) : Bool :=
  let now_week_hour := now_day * 24 + now_hour
  let start_week_hour := tr.start_day * 24 + tr.start_hour
  let end_week_hour := tr.end_day * 24 + tr.end_hour
  if start_week_hour ≤ end_week_hour then
    decide (start_week_hour ≤ now_week_hour ∧ now_week_hour < end_week_hour)
  else
    decide (now_week_hour ≥ start_week_hour ∨ now_week_hour < end_week_hour)

/-- Embedding of `_DAY_TO_NUM` from `sched.py`, as a lookup on the three-letter
abbreviation already split off the front of the character list.  Returns
the day number together with the remaining characters, or `none` when no
abbreviation is a prefix (the day alternative of `_DIR_NAME_PATTERN`). -/
def parseDay : List Char → Option (Int × List Char)
  | 'm' :: 'o' :: 'n' :: rest => some (0, rest)
  | 't' :: 'u' :: 'e' :: rest => some (1, rest)
  | 'w' :: 'e' :: 'd' :: rest => some (2, rest)
  | 't' :: 'h' :: 'u' :: rest => some (3, rest)
  | 'f' :: 'r' :: 'i' :: rest => some (4, rest)
  | 's' :: 'a' :: 't' :: rest => some (5, rest)
  | 's' :: 'u' :: 'n' :: rest => some (6, rest)
  | _ => none

/-- Numeric value of an ASCII digit. -/
def digitVal (c : Char) : Int :=
  (c.toNat : Int) - ('0'.toNat : Int)

/-- Hour groups of `_DIR_NAME_PATTERN` (one or two decimal digits):
greedily take one or two digits.  Greedy matching without backtracking is
equivalent to the regex here because each occurrence is followed by a
non-digit (`:`) or the end of the name, so the regex's one-digit
backtracking alternative (whose next character would be the second digit)
can never succeed. -/
def parseHour : List Char → Option (Int × List Char)
  | c1 :: c2 :: rest =>
    if c1.isDigit then
      if c2.isDigit then some (10 * digitVal c1 + digitVal c2, rest)
      else some (digitVal c1, c2 :: rest)
    else none
  | [c1] => if c1.isDigit then some (digitVal c1, []) else none
  | [] => none

/-- A literal character of `_DIR_NAME_PATTERN` (`-` or `:`). -/
def expectChar (c : Char) : List Char → Option (List Char)
  | d :: rest => if d = c then some rest else none
  | [] => none

/-- Embedding of `_parse_dir_name` from `sched.py`: lowercase the name,
match it against the anchored pattern day, dash, one or two digits, colon,
day, dash, one or two digits (day being a three-letter weekday
abbreviation), then reject hours outside `[0, 24)`.  Returns `none` when
the name does not match (such names are skipped by the scheduler).
Python's `$` anchor matches at the end of the string or just before one
trailing newline, so a name ending in a single `'\n'` right after the
second hour also matches. -/
def parse_dir_name (name : String) : Option TimeRange := do
  let cs := name.toList.map Char.toLower
  let (start_day, cs) ← parseDay cs
  let cs ← expectChar '-' cs
  let (start_hour, cs) ← parseHour cs
  let cs ← expectChar ':' cs
  let (end_day, cs) ← parseDay cs
  let cs ← expectChar '-' cs
  let (end_hour, cs) ← parseHour cs
  if cs = [] ∨ cs = ['\n'] then
    if 0 ≤ start_hour ∧ start_hour < 24 ∧ 0 ≤ end_hour ∧ end_hour < 24 then
      some ⟨start_day, start_hour, end_day, end_hour⟩
    else
      none
  else
    none

/-- One entry of a directory listing: its final name and whether it is a
directory (result of `entry.is_dir()`). -/
structure DirEntry where
  name : String
  isDir : Bool
deriving DecidableEq, Repr

/-- Snapshot of the base directory as `get_cur_dir` observes it:
whether `base_dir.is_dir()` holds, whether `base_dir.iterdir()` succeeds
(it raises `PermissionError` on an existing but unreadable directory),
and the listing. -/
structure BaseDir where
  isDir : Bool
  readable : Bool
  entries : List DirEntry
deriving DecidableEq, Repr

/-- One comparison step of Python's `min` with a key: the running
minimum `acc` is replaced by the next element `y` only when `y`'s key is
strictly smaller. -/
def pyMinStep (acc y : String × TimeRange) : String × TimeRange :=
  if y.2.duration < acc.2.duration then y else acc

/-- Python's `min(matches, key=lambda m: m[1].duration)`: the first
element attaining the minimal duration. -/
def pyMinByDuration (l : List (String × TimeRange)) : Option (String × TimeRange) :=
  match l with
  | [] => none
  | x :: xs => some (xs.foldl pyMinStep x)

/-- The matching pass of `get_cur_dir`: subdirectory entries whose name
parses as a time range containing the current moment, in listing order. -/
def schedMatches (entries : List DirEntry) (now_day now_hour : Int) :
    List (String × TimeRange) :=
  entries.filterMap fun e =>
    if e.isDir then
      match parse_dir_name e.name with
      | some tr => if time_in_range now_day now_hour tr then some (e.name, tr) else none
      | none => none
    else
      none

/-- Whether `(base_dir / "default").is_dir()` holds, in terms of the
listing snapshot. -/
def hasDefaultDir (base : BaseDir) : Bool :=
  base.entries.any fun e => e.name = "default" && e.isDir

/-- Embedding of `get_cur_dir` from `sched.py`, over a snapshot of the filesystem and
the current moment.  Returns the name of the chosen subdirectory.
`Except.error ()` models the uncaught `PermissionError` that
`base_dir.iterdir()` raises on an existing but unreadable directory. -/
def get_cur_dir (base : BaseDir) (now_day now_hour : Int) :
    Except Unit (Option String) :=
  if !base.isDir then
    .ok none
  else if !base.readable then
    .error ()
  else
    match pyMinByDuration (schedMatches base.entries now_day now_hour) with
    | some m => .ok (some m.1)
    | none =>
      if hasDefaultDir base then .ok (some "default") else .ok none

/-! ## Track selector (`src/cabjovi/playback.py`) -/

/-- One entry of the listing of the chosen directory: its final name and
whether it is a regular file (result of `entry.is_file()`). -/
structure PlayEntry where
  name : String
  isFile : Bool
deriving DecidableEq, Repr

/-- Snapshot of the chosen directory as `_list_mp3_files` observes it. -/
structure PlayDir where
  isDir : Bool
  entries : List PlayEntry
deriving DecidableEq, Repr

/-- Index of the last occurrence of `c` in `cs`, or `-1` when absent
(Python's `str.rfind`). -/
def pyRFind (cs : List Char) (c : Char) : Int :=
  (List.range cs.length).foldl
    (fun acc i => if cs.get? i = some c then (i : Int) else acc) (-1)

/-- Embedding of `pathlib.PurePath.suffix` restricted to a final path
component: the substring from the last dot on, unless that dot is the
first or the last character, in which case the suffix is empty. -/
def pySuffix (name : String) : String :=
  let cs := name.toList
  let i := pyRFind cs '.'
  if 0 < i ∧ i < (cs.length : Int) - 1 then String.mk (cs.drop i.toNat) else ""

/-- Lowercased sort/comparison key of a file name (Python's
`p.name.lower()`, ASCII case folding). -/
def lowerKey (s : String) : String :=
  String.mk (s.toList.map Char.toLower)

/-- Strict lexicographic order on character lists by code point — the
order Python uses to compare strings. -/
def charListLt : List Char → List Char → Bool
  | _, [] => false
  | [], _ :: _ => true
  | c :: cs, d :: ds =>
    if c.toNat < d.toNat then true
    else if d.toNat < c.toNat then false
    else charListLt cs ds

/-- Stable insertion of `x` into a list sorted by ascending `lowerKey`:
`x` moves past `y` only when `y`'s key is strictly smaller, so among
equal keys the original order is kept, as with Python's stable `sorted`. -/
def insertByLowerName (x : String) : List String → List String
  | [] => [x]
  | y :: ys =>
    if charListLt (lowerKey y).toList (lowerKey x).toList then
      y :: insertByLowerName x ys
    else x :: y :: ys

/-- Stable insertion sort by ascending `lowerKey`; agrees with Python's
`sorted(names, key=lambda p: p.name.lower())`. -/
def sortByLowerName : List String → List String
  | [] => []
  | x :: xs => insertByLowerName x (sortByLowerName xs)

/-- Embedding of `PlaybackCtrl._list_mp3_files`: names of the regular
files whose suffix lowercases to `.mp3`, sorted by lowercased name. -/
def list_mp3_files (dir : PlayDir) : List String :=
  if !dir.isDir then []
  else
    sortByLowerName (dir.entries.filterMap fun e =>
      if e.isFile && lowerKey (pySuffix e.name) = ".mp3" then some e.name else none)

/-- Mutable state of `PlaybackCtrl`: the remembered current directory and
the name of the last played file. -/
structure PlaybackState where
  cur_dir : Option String
  last_played_file_name : Option String
deriving DecidableEq, Repr

/-- Model of `random.choice(l)`: an arbitrary pick index reduced modulo
the list length.  On an empty list the result is `none`, mirroring the
`IndexError` that `random.choice([])` raises. -/
def pyRandomChoice (l : List String) (pick : Nat) : Option String :=
  l.get? (pick % l.length)

/-- Candidate list built by `select_next` (the Python local
`candidates`): after a directory change (or with no last-played name) all
files are candidates; otherwise, with more than one file, the last played
file is excluded. -/
def candidatesOf (st : PlaybackState) (d : String) (dir : PlayDir) : List String :=
  match (if some d = st.cur_dir then st.last_played_file_name else none) with
  | some nm =>
    if 1 < (list_mp3_files dir).length then
      (list_mp3_files dir).filter (fun f => f ≠ nm)
    else list_mp3_files dir
  | none => list_mp3_files dir

/-- Embedding of `PlaybackCtrl.select_next`.  The scheduler's chosen
directory (`cur_dir`, the result of `get_cur_dir`) and the listing of
that directory (`dir`) are passed explicitly, as is the random pick
index.  Returns the selected file name (or `none` for forced silence)
together with the updated controller state; `Except.error ()` is the
`IndexError` branch of `random.choice` on an empty candidate list, which
cannot occur for a real directory listing (distinct file names). -/
def select_next (st : PlaybackState) (cur_dir : Option String) (dir : PlayDir)
    (pick : Nat) : Except Unit (Option String × PlaybackState) :=
  match cur_dir with
  | none => .ok (none, ⟨none, none⟩)
  | some d =>
    if list_mp3_files dir = [] then .ok (none, ⟨some d, none⟩)
    else
      match pyRandomChoice (candidatesOf st d dir) pick with
      | some f => .ok (some f, ⟨some d, some f⟩)
      | none => .error ()

/-! ## Mute controller (`src/cabjovi/mute.py`)

The two background loops are embedded by their loop bodies: one GPIO
debounce-loop iteration after the stable level read (`gpio_step`) and one
auto-mute-loop wake (`auto_mute_tick`).  All state mutations happen under
the controller's single lock, so a loop body is an atomic state
transition.  Times are rationals (Python floats are real-valued clock
readings); the mixer actuator is represented by the boolean result of the
`mute()`/`unmute()` call it performs, supplied as an argument. -/

/-- Lock-guarded mutable state of `MuteCtrl`.  `last_gpio_value` is
`some true` for `gpiod.line.Value.ACTIVE`, `some false` for `INACTIVE`,
and `none` initially. -/
structure MuteState where
  is_muted : Bool
  last_mute_time : ℚ
  last_unmute_time : ℚ
  last_gpio_value : Option Bool
deriving DecidableEq, Repr

/-- Embedding of `MuteCtrl._do_mute`: a no-op when already muted;
otherwise calls the mixer's `mute` (result `mixer_ok`) and only on
success records the muted state and the mute time. -/
def do_mute (st : MuteState) (mixer_ok : Bool) (now : ℚ) : MuteState :=
  if st.is_muted then st
  else if !mixer_ok then st
  else { st with is_muted := true, last_mute_time := now }

/-- Embedding of `MuteCtrl._do_unmute`: a no-op when already unmuted;
refuses while `now - last_mute_time < door_debounce` (door lockout);
otherwise calls the mixer's `unmute` (result `mixer_ok`) and only on
success records the unmuted state and the unmute time. -/
def do_unmute (door_debounce : ℚ) (st : MuteState) (mixer_ok : Bool)
    (now : ℚ) : MuteState :=
  if !st.is_muted then st
  else if now - st.last_mute_time < door_debounce then st
  else if !mixer_ok then st
  else { st with is_muted := false, last_unmute_time := now }

/-- One iteration of `MuteCtrl._gpio_loop` from the point where the
stable level `val` has been read (`true` = `ACTIVE`, switch open): a
reading equal to `last_gpio_value` is discarded as spurious; a changed
reading updates `last_gpio_value` and drives `_do_mute` (INACTIVE) or
`_do_unmute` (ACTIVE). -/
def gpio_step (door_debounce : ℚ) (st : MuteState) (val : Bool)
    (mixer_ok : Bool) (now : ℚ) : MuteState :=
  if some val = st.last_gpio_value then st
  else
    let st1 := { st with last_gpio_value := some val }
    if val = false then do_mute st1 mixer_ok now
    else do_unmute door_debounce st1 mixer_ok now

/-- One wake of `MuteCtrl._auto_mute_loop`: skips while muted; while
unmuted and `now - last_unmute_time ≥ auto_mute_delay` it calls the
mixer's `mute` (result `mixer_ok`), updating the state only on success.
The returned boolean reports whether a mute was attempted (the mixer was
called) on this wake. -/
def auto_mute_tick (auto_mute_delay : ℚ) (st : MuteState) (mixer_ok : Bool)
    (now : ℚ) : MuteState × Bool :=
  if st.is_muted then (st, false)
  else if now - st.last_unmute_time ≥ auto_mute_delay then
    (if mixer_ok then { st with is_muted := true, last_mute_time := now } else st,
     true)
  else (st, false)

/-! ## Helper lemmas -/

/-- The fold underlying `pyMinByDuration` returns an element of the list
whose duration is minimal. -/
theorem pyMinStep_foldl_spec (xs : List (String × TimeRange)) :
    ∀ x : String × TimeRange,
      xs.foldl pyMinStep x ∈ x :: xs ∧
        ∀ p ∈ x :: xs, (xs.foldl pyMinStep x).2.duration ≤ p.2.duration := by
  induction xs with
  | nil =>
    intro x
    constructor
    · simp
    · intro p hp
      simp only [List.foldl_nil]
      rcases List.mem_cons.mp hp with h | h
      · rw [h]
      · simp at h
  | cons y ys ih =>
    intro x
    have hy := ih (pyMinStep x y)
    have hstep_le_x : (pyMinStep x y).2.duration ≤ x.2.duration := by
      unfold pyMinStep
      split_ifs with hlt
      · exact le_of_lt hlt
      · exact le_refl _
    have hstep_le_y : (pyMinStep x y).2.duration ≤ y.2.duration := by
      unfold pyMinStep
      split_ifs with hlt
      · exact le_refl _
      · exact le_of_not_lt hlt
    constructor
    · simp only [List.foldl_cons]
      rcases List.mem_cons.mp hy.1 with h | h
      · rw [h]
        unfold pyMinStep
        split_ifs
        · exact List.mem_cons_of_mem _ (List.mem_cons_self _ _)
        · exact List.mem_cons_self _ _
      · exact List.mem_cons_of_mem _ (List.mem_cons_of_mem _ h)
    · intro p hp
      simp only [List.foldl_cons]
      rcases List.mem_cons.mp hp with h | h
      · rw [h]
        exact le_trans (hy.2 (pyMinStep x y) (List.mem_cons_self _ _)) hstep_le_x
      rcases List.mem_cons.mp h with h2 | h2
      · rw [h2]
        exact le_trans (hy.2 (pyMinStep x y) (List.mem_cons_self _ _)) hstep_le_y
      · exact hy.2 p (List.mem_cons_of_mem _ h2)

/-- Specification of `pyMinByDuration`: a returned element belongs to the
list and has minimal duration. -/
theorem pyMinByDuration_spec (l : List (String × TimeRange))
    (m : String × TimeRange) (h : pyMinByDuration l = some m) :
    m ∈ l ∧ ∀ p ∈ l, m.2.duration ≤ p.2.duration := by
  cases l with
  | nil => simp [pyMinByDuration] at h
  | cons x xs =>
    simp only [pyMinByDuration, Option.some.injEq] at h
    rw [← h]
    exact pyMinStep_foldl_spec xs x

/-- A result of `pyMinByDuration` is `none` exactly on the empty list. -/
theorem pyMinByDuration_eq_none (l : List (String × TimeRange)) :
    pyMinByDuration l = none ↔ l = [] := by
  cases l <;> simp [pyMinByDuration]

/-- Every element collected by `schedMatches` carries the parse of its
own name, and its range contains the current moment. -/
theorem schedMatches_mem (entries : List DirEntry) (now_day now_hour : Int)
    (p : String × TimeRange)
    (hp : p ∈ schedMatches entries now_day now_hour) :
    parse_dir_name p.1 = some p.2 ∧ time_in_range now_day now_hour p.2 = true := by
  simp only [schedMatches, List.mem_filterMap] at hp
  obtain ⟨e, _, hfe⟩ := hp
  by_cases hd : e.isDir = true
  · rw [if_pos hd] at hfe
    cases hparse : parse_dir_name e.name with
    | none => rw [hparse] at hfe; exact absurd hfe (by simp)
    | some tr =>
      rw [hparse] at hfe
      dsimp only at hfe
      by_cases hin : time_in_range now_day now_hour tr = true
      · rw [if_pos hin] at hfe
        have h2 : p = (e.name, tr) := by
          first
            | exact Option.some.inj hfe
            | exact Option.some.inj hfe.symm
        rw [h2]
        exact ⟨hparse, hin⟩
      · rw [if_neg hin] at hfe
        exact absurd hfe (by simp)
  · rw [if_neg hd] at hfe
    exact absurd hfe (by simp)

/-! ## Claim theorems -/

/-- C1: for a weekly time range with `start_week_hour ≤ end_week_hour`
(week hours computed as `day * 24 + hour`), a moment is inside the range
iff `start_week_hour ≤ now_week_hour < end_week_hour`; for a wrap-around
range (`start_week_hour > end_week_hour`), it is inside iff
`now_week_hour ≥ start_week_hour` or `now_week_hour < end_week_hour`. -/
theorem sched_time_in_range_iff (tr : TimeRange) (now_day now_hour : Int) :
    (tr.start_day * 24 + tr.start_hour ≤ tr.end_day * 24 + tr.end_hour →
      (time_in_range now_day now_hour tr = true ↔
        tr.start_day * 24 + tr.start_hour ≤ now_day * 24 + now_hour ∧
          now_day * 24 + now_hour < tr.end_day * 24 + tr.end_hour)) ∧
    (tr.end_day * 24 + tr.end_hour < tr.start_day * 24 + tr.start_hour →
      (time_in_range now_day now_hour tr = true ↔
        now_day * 24 + now_hour ≥ tr.start_day * 24 + tr.start_hour ∨
          now_day * 24 + now_hour < tr.end_day * 24 + tr.end_hour)) := by
  constructor
  · intro h
    simp [time_in_range, h]
  · intro h
    have h2 : ¬(tr.start_day * 24 + tr.start_hour ≤ tr.end_day * 24 + tr.end_hour) :=
      not_le.mpr h
    simp [time_in_range, h2]

/-- Witness for `sched_time_in_range_iff`: Monday 8:00–17:00 at Monday
10:00 (normal range), and Friday 18:00–Monday 6:00 at Saturday 2:00
(wrap-around range). -/
theorem sched_time_in_range_iff_w :
    (time_in_range 0 10 ⟨0, 8, 0, 17⟩ = true ↔
      (0 : Int) * 24 + 8 ≤ 0 * 24 + 10 ∧ (0 : Int) * 24 + 10 < 0 * 24 + 17) ∧
    (time_in_range 5 2 ⟨4, 18, 0, 6⟩ = true ↔
      (5 : Int) * 24 + 2 ≥ 4 * 24 + 18 ∨ (5 : Int) * 24 + 2 < 0 * 24 + 6) :=
  ⟨(sched_time_in_range_iff ⟨0, 8, 0, 17⟩ 0 10).1 (by norm_num),
   (sched_time_in_range_iff ⟨4, 18, 0, 6⟩ 5 2).2 (by norm_num)⟩

/-- C10: a time range whose start day and hour equal its end day and hour
has duration 0 and contains no moment of the week (the zero-length
interpretation of the spec's open question). -/
theorem sched_zero_length_range (tr : TimeRange) (now_day now_hour : Int)
    (h1 : tr.start_day = tr.end_day) (h2 : tr.start_hour = tr.end_hour) :
    tr.duration = 0 ∧ time_in_range now_day now_hour tr = false := by
  obtain ⟨sd, sh, ed, eh⟩ := tr
  simp only at h1 h2
  subst h1
  subst h2
  refine ⟨by simp [TimeRange.duration], ?_⟩
  simp only [time_in_range]
  norm_num

/-- Witness for `sched_zero_length_range`: Wednesday 5:00 to Wednesday
5:00, probed at Thursday 7:00. -/
theorem sched_zero_length_range_w :
    (⟨2, 5, 2, 5⟩ : TimeRange).duration = 0 ∧
      time_in_range 3 7 ⟨2, 5, 2, 5⟩ = false :=
  sched_zero_length_range ⟨2, 5, 2, 5⟩ 3 7 rfl rfl

/-- C9 (amended): a missing base directory (or a path that is not a
directory) makes `get_cur_dir` return none; but an existing, unreadable
base directory makes `base_dir.iterdir()` raise `PermissionError`, which
`get_cur_dir` does not catch, so the error propagates to the caller. -/
theorem sched_missing_dir_none (base : BaseDir) (now_day now_hour : Int) :
    (base.isDir = false → get_cur_dir base now_day now_hour = .ok none) ∧
    (base.isDir = true → base.readable = false →
      get_cur_dir base now_day now_hour = .error ()) := by
  constructor
  · intro h
    simp [get_cur_dir, h]
  · intro h1 h2
    simp [get_cur_dir, h1, h2]

/-- Witness for `sched_missing_dir_none`: a missing base directory and an
existing unreadable one. -/
theorem sched_missing_dir_none_w :
    get_cur_dir ⟨false, true, []⟩ 0 0 = .ok none ∧
      get_cur_dir ⟨true, false, []⟩ 0 0 = .error () :=
  ⟨(sched_missing_dir_none ⟨false, true, []⟩ 0 0).1 rfl,
   (sched_missing_dir_none ⟨true, false, []⟩ 0 0).2 rfl rfl⟩

/-- Counterexample to C9 as stated: for an existing but unreadable base
directory, `get_cur_dir` does not return none — the listing error
propagates (`Except.error`), because `get_cur_dir` only guards
`base_dir.is_dir()` and has no handler around `base_dir.iterdir()`. -/
theorem sched_unreadable_dir_cex :
    (⟨true, false, []⟩ : BaseDir).isDir = true ∧
    (⟨true, false, []⟩ : BaseDir).readable = false ∧
    get_cur_dir ⟨true, false, []⟩ 0 0 ≠ .ok none ∧
    get_cur_dir ⟨true, false, []⟩ 0 0 = .error () :=
  ⟨rfl, rfl, fun h => Except.noConfusion h, rfl⟩

/-- C4: when the actuator call fails (the mixer's `mute`/`unmute` returns
false), every transition attempt — `_do_mute`, `_do_unmute`, a
switch-triggered step of the GPIO loop, and an auto-mute wake — leaves
`is_muted`, `last_mute_time` and `last_unmute_time` exactly as they were
(for the GPIO step only the remembered switch level may change, which is
written before the actuator is consulted). -/
theorem mute_actuator_failure_keeps_state (door_debounce auto_mute_delay : ℚ)
    (st : MuteState) (val : Bool) (now : ℚ) :
    do_mute st false now = st ∧
    do_unmute door_debounce st false now = st ∧
    ((gpio_step door_debounce st val false now).is_muted = st.is_muted ∧
      (gpio_step door_debounce st val false now).last_mute_time = st.last_mute_time ∧
      (gpio_step door_debounce st val false now).last_unmute_time = st.last_unmute_time) ∧
    (auto_mute_tick auto_mute_delay st false now).1 = st := by
  refine ⟨?_, ?_, ?_, ?_⟩
  · simp only [do_mute]
    split_ifs <;> first | rfl | simp_all
  · simp only [do_unmute]
    split_ifs <;> first | rfl | simp_all
  · simp only [gpio_step, do_mute, do_unmute]
    split_ifs <;> first | rfl | simp_all
  · simp only [auto_mute_tick]
    split_ifs <;> first | rfl | simp_all

/-- C6: the auto-mute wake leaves the state untouched and attempts no
mute while `now - last_unmute_time < auto_mute_delay`; it attempts a mute
(calls the mixer) whenever it wakes unmuted with
`now - last_unmute_time ≥ auto_mute_delay`; and it never fires while
already muted. -/
theorem mute_auto_mute_timing (auto_mute_delay : ℚ) (st : MuteState)
    (mixer_ok : Bool) (now : ℚ) :
    (st.is_muted = false → now - st.last_unmute_time < auto_mute_delay →
      auto_mute_tick auto_mute_delay st mixer_ok now = (st, false)) ∧
    (st.is_muted = false → auto_mute_delay ≤ now - st.last_unmute_time →
      (auto_mute_tick auto_mute_delay st mixer_ok now).2 = true) ∧
    (st.is_muted = true →
      auto_mute_tick auto_mute_delay st mixer_ok now = (st, false)) := by
  refine ⟨?_, ?_, ?_⟩
  · intro h1 h2
    simp only [auto_mute_tick, h1]
    rw [if_neg (by simp), if_neg (not_le.mpr h2)]
  · intro h1 h2
    simp only [auto_mute_tick, h1]
    rw [if_neg (by simp), if_pos h2]
  · intro h
    simp [auto_mute_tick, h]

/-- Witness for `mute_auto_mute_timing`: delay 300 s, last unmute at
100 s, wakes at 399 s (too early), 400 s (fires), and a muted state. -/
theorem mute_auto_mute_timing_w :
    auto_mute_tick 300 ⟨false, 0, 100, none⟩ true 399 = (⟨false, 0, 100, none⟩, false) ∧
    (auto_mute_tick 300 ⟨false, 0, 100, none⟩ true 400).2 = true ∧
    auto_mute_tick 300 ⟨true, 0, 100, none⟩ true 450 = (⟨true, 0, 100, none⟩, false) :=
  ⟨(mute_auto_mute_timing 300 ⟨false, 0, 100, none⟩ true 399).1 rfl (by norm_num),
   (mute_auto_mute_timing 300 ⟨false, 0, 100, none⟩ true 400).2.1 rfl (by norm_num),
   (mute_auto_mute_timing 300 ⟨true, 0, 100, none⟩ true 450).2.2 rfl⟩

/-- A successful `pyRandomChoice` picks an element of the list. -/
theorem pyRandomChoice_mem (l : List String) (pick : Nat) (x : String)
    (h : pyRandomChoice l pick = some x) : x ∈ l :=
  List.get?_mem h

/-- Inversion of a successful selection: the returned state remembers the
directory and the selected name, and the selected name comes from the
candidate list. -/
theorem select_next_ok_inv (st : PlaybackState) (d : String) (dir : PlayDir)
    (pick : Nat) (f : String) (stout : PlaybackState)
    (h : select_next st (some d) dir pick = .ok (some f, stout)) :
    stout = ⟨some d, some f⟩ ∧ f ∈ candidatesOf st d dir := by
  simp only [select_next] at h
  by_cases hemp : list_mp3_files dir = []
  · rw [if_pos hemp] at h
    simp at h
  · rw [if_neg hemp] at h
    cases hc : pyRandomChoice (candidatesOf st d dir) pick with
    | none => rw [hc] at h; simp at h
    | some x =>
      rw [hc] at h
      simp only [Except.ok.injEq, Prod.mk.injEq, Option.some.injEq] at h
      obtain ⟨hx, hst⟩ := h
      subst hx
      exact ⟨hst.symm, pyRandomChoice_mem _ _ _ hc⟩

/-- C3: from the Muted state, a stable switch-open reading within the
door-debounce lockout (`now - last_mute_time < door_debounce`) is
rejected — the state stays Muted (only the remembered switch level is
recorded, independently of the actuator); a qualifying open reading after
the lockout has elapsed, with the actuator succeeding, transitions the
controller to Unmuted. -/
theorem mute_unmute_lockout (door_debounce : ℚ) (st : MuteState)
    (mixer_ok : Bool) (now1 now2 : ℚ) :
    (st.is_muted = true → now1 - st.last_mute_time < door_debounce →
      gpio_step door_debounce st true mixer_ok now1 =
        { st with last_gpio_value := some true }) ∧
    (st.is_muted = true → st.last_gpio_value ≠ some true →
      door_debounce ≤ now2 - st.last_mute_time →
      gpio_step door_debounce st true true now2 =
        { st with is_muted := false, last_unmute_time := now2,
                  last_gpio_value := some true }) := by
  constructor
  · intro hm hlock
    by_cases hsp : some true = st.last_gpio_value
    · obtain ⟨a, b, c, g⟩ := st
      simp only at hsp
      subst hsp
      simp [gpio_step]
    · have hnl : ¬(now1 - st.last_mute_time < door_debounce) →
          False := fun hh => hh hlock
      simp [gpio_step, do_unmute, hsp, hm, hlock]
  · intro hm hsp hunlock
    have hsp2 : ¬(some true = st.last_gpio_value) := fun h => hsp h.symm
    have hnl : ¬(now2 - st.last_mute_time < door_debounce) := not_lt.mpr hunlock
    simp [gpio_step, do_unmute, hsp2, hm, hnl]

/-- Witness for `mute_unmute_lockout`: door debounce 1 s, last mute at
10 s; an open reading at 10.5 s is rejected, one at 11.5 s unmutes. -/
theorem mute_unmute_lockout_w :
    gpio_step 1 ⟨true, 10, 0, some false⟩ true true (21 / 2 : ℚ) =
      ⟨true, 10, 0, some true⟩ ∧
    gpio_step 1 ⟨true, 10, 0, some false⟩ true true (23 / 2 : ℚ) =
      ⟨false, 10, 23 / 2, some true⟩ :=
  ⟨(mute_unmute_lockout 1 ⟨true, 10, 0, some false⟩ true (21 / 2) (23 / 2)).1
      rfl (by norm_num),
   (mute_unmute_lockout 1 ⟨true, 10, 0, some false⟩ true (21 / 2) (23 / 2)).2
      rfl (by decide) (by norm_num)⟩

/-- C8: `select_next` returns none when the chosen directory has no
eligible files (remembering the now-empty directory), returns none and
clears all memory when no directory is chosen, and whenever the chosen
directory differs from the remembered one it behaves exactly as if the
last-played memory had been reset to empty before selecting. -/
theorem select_next_empty_and_reset (st : PlaybackState) (dir : PlayDir)
    (pick : Nat) (d : String) :
    (list_mp3_files dir = [] →
      select_next st (some d) dir pick = .ok (none, ⟨some d, none⟩)) ∧
    select_next st none dir pick = .ok (none, ⟨none, none⟩) ∧
    (st.cur_dir ≠ some d →
      select_next st (some d) dir pick =
        select_next ⟨none, none⟩ (some d) dir pick) := by
  refine ⟨?_, rfl, ?_⟩
  · intro h
    simp [select_next, h]
  · intro h
    have h2 : ¬(some d = st.cur_dir) := fun hh => h hh.symm
    simp [select_next, candidatesOf, h2]

/-- Witness for `select_next_empty_and_reset`: an empty directory while
the remembered directory differs. -/
theorem select_next_empty_and_reset_w :
    select_next ⟨some "e", some "a.mp3"⟩ (some "d") ⟨true, []⟩ 0 =
      .ok (none, ⟨some "d", none⟩) ∧
    select_next ⟨some "e", some "a.mp3"⟩ none ⟨true, []⟩ 0 =
      .ok (none, ⟨none, none⟩) ∧
    select_next ⟨some "e", some "a.mp3"⟩ (some "d") ⟨true, []⟩ 0 =
      select_next ⟨none, none⟩ (some "d") ⟨true, []⟩ 0 :=
  ⟨(select_next_empty_and_reset ⟨some "e", some "a.mp3"⟩ ⟨true, []⟩ 0 "d").1 rfl,
   (select_next_empty_and_reset ⟨some "e", some "a.mp3"⟩ ⟨true, []⟩ 0 "d").2.1,
   (select_next_empty_and_reset ⟨some "e", some "a.mp3"⟩ ⟨true, []⟩ 0 "d").2.2
     (by decide)⟩

/-- C5: across two consecutive selections in an unchanged chosen
directory holding at least two eligible files, the second returned name
differs from the first; and with exactly one eligible file every call
returns that file. -/
theorem select_next_no_repeat :
    (∀ (st st1 st2 : PlaybackState) (dir : PlayDir) (d f g : String)
        (pick1 pick2 : Nat),
      1 < (list_mp3_files dir).length →
      select_next st (some d) dir pick1 = .ok (some f, st1) →
      select_next st1 (some d) dir pick2 = .ok (some g, st2) →
      g ≠ f) ∧
    (∀ (st : PlaybackState) (dir : PlayDir) (d f : String) (pick : Nat),
      list_mp3_files dir = [f] →
      select_next st (some d) dir pick = .ok (some f, ⟨some d, some f⟩)) := by
  constructor
  · intro st st1 st2 dir d f g pick1 pick2 hlen h1 h2
    obtain ⟨hst1, _⟩ := select_next_ok_inv _ _ _ _ _ _ h1
    subst hst1
    obtain ⟨_, hgmem⟩ := select_next_ok_inv _ _ _ _ _ _ h2
    have hcand : candidatesOf ⟨some d, some f⟩ d dir =
        (list_mp3_files dir).filter (fun x => x ≠ f) := by
      simp [candidatesOf, hlen]
    rw [hcand] at hgmem
    have hg := (List.mem_filter.mp hgmem).2
    simpa using hg
  · intro st dir d f pick hone
    have hne : list_mp3_files dir ≠ [] := by rw [hone]; simp
    have hc : candidatesOf st d dir = [f] := by
      unfold candidatesOf
      rw [hone]
      cases (if some d = st.cur_dir then st.last_played_file_name else none) with
      | none => rfl
      | some nm => simp
    simp only [select_next]
    rw [if_neg hne, hc]
    simp [pyRandomChoice, Nat.mod_one]

/-- Witness for `select_next_no_repeat`: a two-file directory where the
first call selects `a.mp3` and the second must avoid it, and a one-file
directory where the single file repeats. -/
theorem select_next_no_repeat_w :
    ("b.mp3" : String) ≠ "a.mp3" ∧
    select_next ⟨some "d", some "a.mp3"⟩ (some "d") ⟨true, [⟨"a.mp3", true⟩]⟩ 5 =
      .ok (some "a.mp3", ⟨some "d", some "a.mp3"⟩) :=
  ⟨select_next_no_repeat.1 ⟨none, none⟩ ⟨some "d", some "a.mp3"⟩
      ⟨some "d", some "b.mp3"⟩ ⟨true, [⟨"a.mp3", true⟩, ⟨"b.mp3", true⟩]⟩
      "d" "a.mp3" "b.mp3" 0 0 (by decide) rfl rfl,
   select_next_no_repeat.2 ⟨some "d", some "a.mp3"⟩ ⟨true, [⟨"a.mp3", true⟩]⟩
      "d" "a.mp3" 5 rfl⟩

/-- C2: whenever a matching schedule entry has a duration strictly
smaller than every other matching entry's, `get_cur_dir` returns that
entry's directory (Python's `min` over the match list keyed by
duration). -/
theorem sched_narrowest_match (base : BaseDir) (now_day now_hour : Int)
    (e : String) (tr : TimeRange)
    (hdir : base.isDir = true) (hread : base.readable = true)
    (hmem : (e, tr) ∈ schedMatches base.entries now_day now_hour)
    (hmin : ∀ p ∈ schedMatches base.entries now_day now_hour,
        p.1 ≠ e → tr.duration < p.2.duration) :
    get_cur_dir base now_day now_hour = .ok (some e) := by
  cases hm : pyMinByDuration (schedMatches base.entries now_day now_hour) with
  | none =>
    rw [pyMinByDuration_eq_none] at hm
    rw [hm] at hmem
    simp at hmem
  | some m =>
    obtain ⟨hmmem, hmle⟩ := pyMinByDuration_spec _ _ hm
    have h1 : m.1 = e := by
      by_contra hne
      exact absurd (hmle (e, tr) hmem) (not_le.mpr (hmin m hmmem hne))
    simp [get_cur_dir, hdir, hread, hm, h1]

/-- Witness for `sched_narrowest_match`: at Monday 11:00 both
`mon-8:mon-17` (duration 9) and `mon-10:mon-12` (duration 2) match; the
narrower one wins. -/
theorem sched_narrowest_match_w :
    get_cur_dir ⟨true, true, [⟨"mon-8:mon-17", true⟩, ⟨"mon-10:mon-12", true⟩]⟩
        0 11 = .ok (some "mon-10:mon-12") :=
  sched_narrowest_match
    ⟨true, true, [⟨"mon-8:mon-17", true⟩, ⟨"mon-10:mon-12", true⟩]⟩ 0 11
    "mon-10:mon-12" ⟨0, 10, 0, 12⟩ rfl rfl (by decide) (by decide)

/-- C7: when no schedule-named subdirectory matches the current time,
`get_cur_dir` returns the literal `default` subdirectory exactly when one
exists, and none otherwise; and a subdirectory whose name does not parse
as a schedule pattern is ignored — adding it changes nothing. -/
theorem sched_default_fallback (base : BaseDir) (now_day now_hour : Int)
    (bad : DirEntry)
    (hdir : base.isDir = true) (hread : base.readable = true)
    (hnone : schedMatches base.entries now_day now_hour = [])
    (hbad : parse_dir_name bad.name = none)
    (hbadname : bad.name ≠ "default") :
    get_cur_dir base now_day now_hour =
      .ok (if hasDefaultDir base then some "default" else none) ∧
    get_cur_dir ⟨base.isDir, base.readable, bad :: base.entries⟩
        now_day now_hour = get_cur_dir base now_day now_hour := by
  have hpm : pyMinByDuration (schedMatches base.entries now_day now_hour) = none := by
    rw [hnone]; rfl
  have hm2 : schedMatches (bad :: base.entries) now_day now_hour =
      schedMatches base.entries now_day now_hour := by
    simp only [schedMatches, List.filterMap_cons]
    by_cases hd : bad.isDir = true
    · rw [if_pos hd, hbad]
    · rw [if_neg hd]
  have hdd : hasDefaultDir ⟨base.isDir, base.readable, bad :: base.entries⟩ =
      hasDefaultDir base := by
    simp [hasDefaultDir, hbadname]
  constructor
  · cases hhd : hasDefaultDir base <;>
      simp [get_cur_dir, hdir, hread, hpm, hhd]
  · simp only [get_cur_dir]
    rw [hm2, hdd]

/-- Witness for `sched_default_fallback`: at Sunday 10:00 nothing
matches, `default` exists, and a junk-named file entry is ignored. -/
theorem sched_default_fallback_w :
    get_cur_dir
        ⟨true, true, [⟨"mon-8:mon-17", true⟩, ⟨"stuff", true⟩, ⟨"default", true⟩]⟩
        6 10 = .ok (some "default") ∧
    get_cur_dir
        ⟨true, true, ⟨"junk", false⟩ ::
          [⟨"mon-8:mon-17", true⟩, ⟨"stuff", true⟩, ⟨"default", true⟩]⟩
        6 10 =
      get_cur_dir
        ⟨true, true, [⟨"mon-8:mon-17", true⟩, ⟨"stuff", true⟩, ⟨"default", true⟩]⟩
        6 10 :=
  sched_default_fallback
    ⟨true, true, [⟨"mon-8:mon-17", true⟩, ⟨"stuff", true⟩, ⟨"default", true⟩]⟩
    6 10 ⟨"junk", false⟩ rfl rfl rfl rfl (by decide)

/-- Counterexample to C7 as stated: the directory name `mon-8:mon-9`
followed by a newline does not have the form `<day>-<hour>:<day>-<hour>`,
yet the program does not ignore it — Python's `$` anchor accepts one
trailing newline, so `_parse_dir_name` parses it and at Monday 8:00
`get_cur_dir` schedules it instead of falling back to the existing
`default` subdirectory. -/
theorem sched_trailing_newline_cex :
    parse_dir_name "mon-8:mon-9\n" = some ⟨0, 8, 0, 9⟩ ∧
    hasDefaultDir ⟨true, true, [⟨"mon-8:mon-9\n", true⟩, ⟨"default", true⟩]⟩ = true ∧
    get_cur_dir ⟨true, true, [⟨"mon-8:mon-9\n", true⟩, ⟨"default", true⟩]⟩ 0 8 =
      .ok (some "mon-8:mon-9\n") ∧
    get_cur_dir ⟨true, true, [⟨"mon-8:mon-9\n", true⟩, ⟨"default", true⟩]⟩ 0 8 ≠
      .ok (some "default") :=
  ⟨rfl, rfl, rfl,
   fun h => absurd (Option.some.inj (Except.ok.inj h)) (by decide)⟩

end Cabjovi
